import Mathlib

/-!
Verification of the synthetic PII dataset generator (`data_generator.py`).

The source is a Python module with one function `generate_data` containing a
nested corruptor `perturb`.  The embedding below translates that code into
pure Lean functions.  The two external collaborators — Python's `random`
module and the `Faker` field-value provider — are modelled as explicit
streams of draws threaded through the computation: the claims under study
depend only on the draw interface (which value is consumed when), never on
the distribution of the pseudo-random values themselves.
-/

/-- Model of the state of Python's global `random` module: an infinite stream
of naturals together with a cursor.  Each call to the module consumes the
value at the cursor and advances it, so all draws come from one shared stream
in a fixed order, exactly as in the source. -/
structure RandomState where
  stream : Nat → Nat
  pos : Nat

/-- Consume one raw draw from the stream (models one call into `random`). -/
def RandomState.next (g : RandomState) : Nat × RandomState :=
  (g.stream g.pos, { stream := g.stream, pos := g.pos + 1 })

/-- Interpret a raw draw as the 53-bit numerator of `random.random()`: the
drawn float is `fracOf k / 2^53`.  Comparisons against the literal
thresholds 0.3 and 0.1 are modelled exactly by the equivalent integer
comparisons on this numerator (`m / 2^53 > 3/10` iff `10*m > 3*2^53`). -/
def fracOf (k : Nat) : Nat := k % 2 ^ 53

/-- Model of `random.random()`: one draw, interpreted via its 53-bit
numerator. -/
def randomFrac (g : RandomState) : Nat × RandomState :=
  (fracOf (g.stream g.pos), { stream := g.stream, pos := g.pos + 1 })

/-- Model of `random.seed(seed)`: the global stream is replaced by a stream
that is a function of the seed alone (the Mersenne-Twister internals are
outside the repository; only determinism in the seed matters). -/
def pySeed (seed : Int) : RandomState :=
  { stream := fun n => (seed.natAbs + n * 2654435761) % 2 ^ 32, pos := 0 }

/-- Model of `random.choice(xs)`: raises `IndexError` on an empty sequence,
otherwise consumes one draw and returns a uniformly indexed element. -/
def pyChoice (xs : List α) (g : RandomState) : Except String (α × RandomState) :=
  match xs with
  | [] => .error "Cannot choose from an empty sequence"
  | a :: rest =>
    let p := g.next
    .ok ((a :: rest).get ⟨p.1 % (a :: rest).length, Nat.mod_lt _ (Nat.succ_pos _)⟩, p.2)

/-- Model of the Python slice `xs[:n]`, including the negative-bound case
(`xs[:-k]` keeps all but the last `k` elements). -/
def pySliceTo (xs : List α) (n : Int) : List α :=
  if 0 ≤ n then xs.take n.toNat else xs.take (xs.length - n.natAbs)

/-- Model of the state of the seeded `Faker` provider: a seed and a cursor
into its own stream of field values (independent of the `random` stream,
as in the source where `Faker.seed` and `random.seed` are separate). -/
structure FakerState where
  seed : Int
  pos : Nat

/-- Model of `Faker.seed(seed)` followed by `Faker()`: a fresh provider
state determined by the seed alone. -/
def FakerState.reset (seed : Int) : FakerState :=
  { seed := seed, pos := 0 }

/-- Model of `fake.uuid4()` under the provider contract that `unique_id()`
returns fresh pairwise-distinct identifiers: the identifier is the provider
cursor at the moment of the draw, which strictly increases with every
provider call. -/
def fakeUuid4 (f : FakerState) : Nat × FakerState :=
  (f.pos, { seed := f.seed, pos := f.pos + 1 })

/-- Model of `fake.name()`: an opaque non-empty string drawn from the
provider stream. -/
def fakeName (f : FakerState) : String × FakerState :=
  ("N" ++ toString f.seed.natAbs ++ "x" ++ toString f.pos,
   { seed := f.seed, pos := f.pos + 1 })

/-- Model of `fake.address()`: an opaque string (possibly multi-line in the
real provider) drawn from the provider stream. -/
def fakeAddress (f : FakerState) : String × FakerState :=
  ("A" ++ toString f.seed.natAbs ++ "x" ++ toString f.pos,
   { seed := f.seed, pos := f.pos + 1 })

/-- Model of `fake.city()`: an opaque string drawn from the provider stream. -/
def fakeCity (f : FakerState) : String × FakerState :=
  ("C" ++ toString f.seed.natAbs ++ "x" ++ toString f.pos,
   { seed := f.seed, pos := f.pos + 1 })

/-- Model of `str(fake.date_of_birth())`: an opaque string drawn from the
provider stream. -/
def fakeDob (f : FakerState) : String × FakerState :=
  ("D" ++ toString f.seed.natAbs ++ "x" ++ toString f.pos,
   { seed := f.seed, pos := f.pos + 1 })

/-- One output row of the generator.  `id` and `original_id` are the
identifiers drawn from the provider; the four semantic fields may be absent
(`none` models Python's `None`). -/
structure Record where
  id : Nat
  original_id : Nat
  name : Option String
  address : Option String
  city : Option String
  date_of_birth : Option String

/-- The pair of collaborator states owned by one `generate_data` call. -/
structure GenState where
  fk : FakerState
  rnd : RandomState

/-- Python truthiness of an optional string: `None` and `""` are falsy. -/
def pyTruthy : Option String → Bool
  | none => false
  | some s => decide (s ≠ "")

/-- The list `['del', 'ins', 'rep', 'swap']` from line 57 of the source. -/
def pyOps : List String := ["del", "ins", "rep", "swap"]

/-- The alphabet `string.ascii_letters` (52 ASCII letters). -/
def asciiLetters : List Char :=
  "abcdefghijklmnopqrstuvwxyzABCDEFGHIJKLMNOPQRSTUVWXYZ".toList

/-- The simultaneous assignment `chars[i], chars[j] = chars[j], chars[i]`
from line 67 of the source. -/
def pySwap (cs : List Char) (i j : Nat) : List Char :=
  (cs.set i (cs.getD j 'a')).set j (cs.getD i 'a')

/-- Body of `perturb` for a truthy (non-empty) text, lines 55-68 of the
source: one `random.random()` draw decides pass-through (probability 0.7);
otherwise one draw picks the operation, one draw picks the position, and
`ins`/`rep` consume one further draw for the replacement letter.  The
`swap` operation falls through unchanged when the text has one character. -/
def perturbCore (t : String) (g : RandomState) : String × RandomState :=
  let r := randomFrac g
  if 3 * 2 ^ 53 < 10 * r.1 then (t, r.2)
  else
    let chars := t.toList
    let o := r.2.next
    let op := pyOps.getD (o.1 % 4) "del"
    let i := o.2.next
    let idx := i.1 % chars.length
    if op = "del" then ((chars.eraseIdx idx).asString, i.2)
    else if op = "ins" then
      let c := i.2.next
      ((chars.insertIdx idx (asciiLetters.getD (c.1 % 52) 'a')).asString, c.2)
    else if op = "rep" then
      let c := i.2.next
      ((chars.set idx (asciiLetters.getD (c.1 % 52) 'a')).asString, c.2)
    else if op = "swap" ∧ 1 < chars.length then
      let idx2 := if idx < chars.length - 1 then idx + 1 else idx - 1
      ((pySwap chars idx idx2).asString, i.2)
    else (chars.asString, i.2)

/-- The corruptor `perturb` (lines 41-68): a falsy input (`None` or the
empty string) is returned unchanged before any randomness is consumed
(short-circuit of `if not text or random.random() > 0.3`). -/
def perturb (text : Option String) (g : RandomState) : Option String × RandomState :=
  match text with
  | none => (none, g)
  | some t =>
    if t = "" then (some t, g)
    else
      let p := perturbCore t g
      (some p.1, p.2)

/-- The missing-data loop (lines 88-90 and 112-114): for each of `address`,
`city`, `date_of_birth` in that order, one `random.random()` draw and a 10%
chance of overwriting the field with `None`. -/
def dropoutFields (r : Record) (g : RandomState) : Record × RandomState :=
  let a := randomFrac g
  let r1 := if 10 * a.1 < 2 ^ 53 then { r with address := none } else r
  let c := randomFrac a.2
  let r2 := if 10 * c.1 < 2 ^ 53 then { r1 with city := none } else r1
  let d := randomFrac c.2
  let r3 := if 10 * d.1 < 2 ^ 53 then { r2 with date_of_birth := none } else r2
  (r3, d.2)

/-- One iteration of the unique-record loop (lines 74-91): five provider
draws build the record (with `id = original_id = uid` and the address
flattened), then the dropout loop runs on the `random` stream. -/
def makeUnique (st : GenState) : Record × GenState :=
  let u := fakeUuid4 st.fk
  let n := fakeName u.2
  let a := fakeAddress n.2
  let c := fakeCity a.2
  let d := fakeDob c.2
  let r0 : Record :=
    { id := u.1, original_id := u.1, name := some n.1,
      address := some (String.replace a.1 "\n" ", "),
      city := some c.1, date_of_birth := some d.1 }
  let dr := dropoutFields r0 st.rnd
  (dr.1, { fk := d.2, rnd := dr.2 })

/-- The unique-record pass, `for _ in range(n_unique)` (lines 74-91),
returning the records in append order. -/
def uniqueLoop : Nat → GenState → List Record × GenState
  | 0, st => ([], st)
  | k + 1, st =>
    let p := makeUnique st
    let q := uniqueLoop k p.2
    (p.1 :: q.1, q.2)

/-- The duplicate construction of lines 99-108: copy the sampled record,
then overwrite `id` with a fresh provider identifier, `name` with
`perturb(orig['name'])`, and `address` with `perturb(orig['address'])` only
when the source address is truthy (otherwise `None`, consuming no
randomness).  `original_id`, `city` and `date_of_birth` are kept from the
copy. -/
def dupPre (orig : Record) (st : GenState) : Record × GenState :=
  let u := fakeUuid4 st.fk
  let nm := perturb orig.name st.rnd
  let ad := if pyTruthy orig.address then perturb orig.address nm.2 else (none, nm.2)
  ({ orig with id := u.1, name := nm.1, address := ad.1 },
   { fk := u.2, rnd := ad.2 })

/-- One iteration of the duplicate loop (lines 96-116): sample
`random.choice(data[:n_unique])` (which raises on an empty pool), build the
perturbed copy, then run the independent dropout loop. -/
def dupStep (data : List Record) (n_unique : Int) (st : GenState) :
    Except String (Record × GenState) :=
  match pyChoice (pySliceTo data n_unique) st.rnd with
  | .error e => .error e
  | .ok og =>
    let pre := dupPre og.1 { fk := st.fk, rnd := og.2 }
    let dr := dropoutFields pre.1 pre.2.rnd
    .ok (dr.1, { fk := pre.2.fk, rnd := dr.2 })

/-- The duplicate pass, `for _ in range(n_duplicates)` (lines 96-116),
appending each duplicate to the growing data list; a raised error aborts
the whole call with no partial dataset. -/
def dupLoop (n_unique : Int) : Nat → List Record → GenState →
    Except String (List Record × GenState)
  | 0, data, st => .ok (data, st)
  | k + 1, data, st =>
    match dupStep data n_unique st with
    | .error e => .error e
    | .ok d => dupLoop n_unique k (data ++ [d.1]) d.2

/-- The collaborator states right after lines 37-39 (`Faker.seed(seed)` and
`random.seed(seed)`): both are functions of the seed alone. -/
def initState (seed : Int) : GenState :=
  { fk := FakerState.reset seed, rnd := pySeed seed }

/-- The full generator `generate_data(n_unique, n_duplicates, seed)`
(lines 6-118).  `gPre` and `fPre` are the pre-call states of the global
`random` module and the `Faker` class; the source discards both by
reseeding at lines 37-39, which is why they do not occur in the body.
Counts are Python integers, so they are modelled as `Int`; `range(n)` of a
non-positive `n` is empty, hence `Int.toNat`. -/
def generate_data (n_unique n_duplicates seed : Int)
    (gPre : RandomState) (fPre : FakerState) : Except String (List Record) :=
  let up := uniqueLoop n_unique.toNat (initState seed)
  match dupLoop n_unique n_duplicates.toNat up.1 up.2 with
  | .error e => .error e
  | .ok res => .ok res.1

/-- Spec predicate for C4: the first `k` rows are self-referential and their
ids are pairwise distinct. -/
def uniqueSelfRef (k : Nat) (rows : List Record) : Prop :=
  (∀ r ∈ rows.take k, r.id = r.original_id) ∧ (List.map Record.id (rows.take k)).Nodup

/-- Spec predicate for C5: every row's `original_id` matches the `id` of
exactly one of the first `k` rows. -/
def groundTruthClosure (k : Nat) (rows : List Record) : Prop :=
  ∀ r ∈ rows, ((rows.take k).countP fun u => u.id == r.original_id) = 1

/-- Spec predicate for C10: every row has a present `name`. -/
def namesPresent (rows : List Record) : Prop :=
  ∀ r ∈ rows, r.name.isSome = true

/-- Spec predicate for C6: the outcome of `perturb` on `t` is a present
string reachable from `t` by at most one character-level operation — a
delete, an insert, a replace, or a swap of two *adjacent* positions
(`j = i + 1` or `i = j + 1`) — with length within one of `t`'s. -/
def oneOpOutcome (t : String) : Option String → Prop
  | none => False
  | some u =>
    (u.toList = t.toList ∨
      (∃ i, u.toList = t.toList.eraseIdx i) ∨
      (∃ i c, u.toList = t.toList.insertIdx i c) ∨
      (∃ i c, u.toList = t.toList.set i c) ∨
      (∃ i j, (j = i + 1 ∨ i = j + 1) ∧ u.toList = pySwap t.toList i j)) ∧
    (u.length + 1 = t.length ∨ u.length = t.length ∨ u.length = t.length + 1)

/-- Concrete unique-style record with an absent address, used as input for
self-contained instantiations. -/
def sampleNoAddr : Record :=
  { id := 7, original_id := 7, name := some "x",
    address := none, city := some "c", date_of_birth := some "d" }

/-- Fixed low-draw stream: every draw is 0, so the corrupt branch is taken. -/
def gLow : RandomState := { stream := fun _ => 0, pos := 0 }

/-- Fixed stream whose every draw is 3, so the corrupt branch is taken and
the operation drawn is `swap`. -/
def gSwap : RandomState := { stream := fun _ => 3, pos := 0 }

theorem toList_asString (t : String) : t.toList.asString = t := rfl

theorem asString_toList (l : List Char) : l.asString.toList = l := rfl

theorem asString_length (l : List Char) : l.asString.length = l.length := rfl

theorem toList_length (t : String) : t.toList.length = t.length := rfl

theorem toList_ne_nil (t : String) (h : t ≠ "") : t.toList ≠ [] := by
  intro hn
  apply h
  rw [← toList_asString t, hn]
  rfl

theorem dropoutFields_id (r : Record) (g : RandomState) :
    (dropoutFields r g).1.id = r.id := by
  simp only [dropoutFields]
  split_ifs <;> rfl

theorem dropoutFields_original_id (r : Record) (g : RandomState) :
    (dropoutFields r g).1.original_id = r.original_id := by
  simp only [dropoutFields]
  split_ifs <;> rfl

theorem dropoutFields_name (r : Record) (g : RandomState) :
    (dropoutFields r g).1.name = r.name := by
  simp only [dropoutFields]
  split_ifs <;> rfl

theorem dupPre_original_id (orig : Record) (st : GenState) :
    (dupPre orig st).1.original_id = orig.original_id := rfl

theorem dupPre_name (orig : Record) (st : GenState) :
    (dupPre orig st).1.name = (perturb orig.name st.rnd).1 := rfl

theorem perturb_isSome (t : Option String) (g : RandomState) (h : t.isSome = true) :
    (perturb t g).1.isSome = true := by
  cases t with
  | none => simp at h
  | some s =>
    rw [perturb]
    split <;> rfl

/-- C8: `perturb` returns an absent input as `None` and an empty string as
the empty string, in both cases without consuming any randomness (the
returned stream state is exactly the input state). -/
theorem claim_C8 (g : RandomState) :
    perturb none g = (none, g) ∧ perturb (some "") g = (some "", g) :=
  ⟨rfl, rfl⟩

/-- C3: `generate_data` is deterministic — the result depends only on the
counts and the seed, not on the pre-call states of the global random source
or the provider, because both are reseeded once at the start of the call. -/
theorem claim_C3 (nu nd seed : Int) (g0 g1 : RandomState) (f0 f1 : FakerState) :
    generate_data nu nd seed g0 f0 = generate_data nu nd seed g1 f1 := rfl

/-- C9: when the sampled source record has an absent address, the duplicate
built by the corruption step has an absent address, and the corruptor is
never invoked on it — the random stream after the step is exactly the
stream left by the (unconditional) name corruption. -/
theorem claim_C9 (orig : Record) (st : GenState) (h : orig.address = none) :
    (dupPre orig st).1.address = none ∧
      (dupPre orig st).2.rnd = (perturb orig.name st.rnd).2 := by
  rw [dupPre]
  simp only [h, pyTruthy]
  exact ⟨rfl, rfl⟩

theorem claim_C9_witness :
    (dupPre sampleNoAddr (initState 0)).1.address = none ∧
      (dupPre sampleNoAddr (initState 0)).2.rnd =
        (perturb sampleNoAddr.name (initState 0).rnd).2 :=
  claim_C9 sampleNoAddr (initState 0) rfl

/-- C7: `perturb` on a single-character string is safe: whatever the stream
holds, whenever the operation drawn at the second stream position is `swap`
(index 3) the output is the input unchanged — the swap degrades to a no-op
on one character instead of indexing out of bounds (and in the pass-through
branch the input is also returned unchanged). -/
theorem claim_C7 (g : RandomState) (t : String) (h1 : t.length = 1)
    (hswap : g.stream (g.pos + 1) % 4 = 3) :
    (perturb (some t) g).1 = some t := by
  have hne : t ≠ "" := by
    intro h
    subst h
    exact absurd h1 (by decide)
  simp only [perturb]
  rw [if_neg hne]
  show some (perturbCore t g).1 = some t
  rw [perturbCore]
  dsimp only [randomFrac, RandomState.next]
  by_cases hr : 3 * 2 ^ 53 < 10 * fracOf (g.stream g.pos)
  · rw [if_pos hr]
  · rw [if_neg hr]
    have hlen : t.toList.length = 1 := h1
    rw [hswap, hlen]
    simp only [pyOps, List.getD_cons_succ, List.getD_cons_zero]
    rw [if_neg (by decide : ¬("swap" : String) = "del"),
      if_neg (by decide : ¬("swap" : String) = "ins"),
      if_neg (by decide : ¬("swap" : String) = "rep"),
      if_neg (by decide : ¬(True ∧ 1 < 1))]
    exact congrArg some (toList_asString t)

theorem claim_C7_witness :
    ("a" : String).length = 1 ∧ gSwap.stream (gSwap.pos + 1) % 4 = 3 ∧
      (perturb (some "a") gSwap).1 = some "a" :=
  ⟨rfl, by decide, claim_C7 gSwap "a" rfl (by decide)⟩

theorem pySwap_length (cs : List Char) (i j : Nat) :
    (pySwap cs i j).length = cs.length := by
  simp [pySwap]

/-- C6: whenever the corrupt branch is selected (the first draw is at most
0.3), `perturb` of a non-empty text returns a present string obtained from
the input by at most one character-level operation (delete, insert,
replace, adjacent swap, or the swap no-op), whose length differs from the
input's by at most one. -/
theorem claim_C6 (t : String) (g : RandomState) (h1 : t ≠ "")
    (h2 : 10 * fracOf (g.stream g.pos) ≤ 3 * 2 ^ 53) :
    oneOpOutcome t (perturb (some t) g).1 := by
  have hpos : 0 < t.toList.length := List.length_pos.mpr (toList_ne_nil t h1)
  simp only [perturb]
  rw [if_neg h1]
  show oneOpOutcome t (some (perturbCore t g).1)
  rw [perturbCore]
  dsimp only [randomFrac, RandomState.next]
  rw [if_neg (not_lt.mpr h2)]
  have hidxlt : g.stream (g.pos + 1 + 1) % t.toList.length < t.toList.length :=
    Nat.mod_lt _ hpos
  have h4 : g.stream (g.pos + 1) % 4 = 0 ∨ g.stream (g.pos + 1) % 4 = 1 ∨
      g.stream (g.pos + 1) % 4 = 2 ∨ g.stream (g.pos + 1) % 4 = 3 := by omega
  rcases h4 with h | h | h | h <;>
    rw [h] <;> simp only [pyOps, List.getD_cons_zero, List.getD_cons_succ, if_true]
  · -- del
    refine ⟨Or.inr (Or.inl ⟨_, asString_toList _⟩), Or.inl ?_⟩
    rw [asString_length, List.length_eraseIdx, if_pos hidxlt, ← toList_length]
    omega
  · -- ins
    rw [if_neg (by decide : ¬("ins" : String) = "del")]
    refine ⟨Or.inr (Or.inr (Or.inl ⟨_, _, asString_toList _⟩)), Or.inr (Or.inr ?_)⟩
    rw [asString_length, List.length_insertIdx _ _ hidxlt.le, ← toList_length]
  · -- rep
    rw [if_neg (by decide : ¬("rep" : String) = "del"),
      if_neg (by decide : ¬("rep" : String) = "ins")]
    refine ⟨Or.inr (Or.inr (Or.inr (Or.inl ⟨_, _, asString_toList _⟩))), Or.inr (Or.inl ?_)⟩
    rw [asString_length, List.length_set, ← toList_length]
  · -- swap
    rw [if_neg (by decide : ¬("swap" : String) = "del"),
      if_neg (by decide : ¬("swap" : String) = "ins"),
      if_neg (by decide : ¬("swap" : String) = "rep")]
    by_cases hl : 1 < t.toList.length
    · rw [if_pos ⟨trivial, hl⟩]
      by_cases hc : g.stream (g.pos + 1 + 1) % t.toList.length < t.toList.length - 1
      · rw [if_pos hc]
        refine ⟨Or.inr (Or.inr (Or.inr (Or.inr ⟨_, _, Or.inl rfl, asString_toList _⟩))),
          Or.inr (Or.inl ?_)⟩
        rw [asString_length, pySwap_length, ← toList_length]
      · rw [if_neg hc]
        refine ⟨Or.inr (Or.inr (Or.inr (Or.inr ⟨_, _, Or.inr ?_, asString_toList _⟩))),
          Or.inr (Or.inl ?_)⟩
        · omega
        · rw [asString_length, pySwap_length, ← toList_length]
    · rw [if_neg (fun hc => hl hc.2)]
      exact ⟨Or.inl (asString_toList _), Or.inr (Or.inl rfl)⟩

theorem claim_C6_witness :
    ("ab" : String) ≠ "" ∧ 10 * fracOf (gLow.stream gLow.pos) ≤ 3 * 2 ^ 53 ∧
      oneOpOutcome "ab" (perturb (some "ab") gLow).1 :=
  ⟨by decide, by decide, claim_C6 "ab" gLow (by decide) (by decide)⟩

theorem pyChoice_cons (a : α) (rest : List α) (g : RandomState) :
    pyChoice (a :: rest) g =
      .ok ((a :: rest).get ⟨g.next.1 % (a :: rest).length,
        Nat.mod_lt _ (Nat.succ_pos _)⟩, g.next.2) := rfl

theorem pyChoice_mem {xs : List α} {g : RandomState} {p : α × RandomState}
    (h : pyChoice xs g = .ok p) : p.1 ∈ xs := by
  cases xs with
  | nil => simp [pyChoice] at h
  | cons a rest =>
    rw [pyChoice_cons] at h
    injection h with h2
    rw [← h2]
    exact List.get_mem _ _ _

theorem pySliceTo_nil (n : Int) : pySliceTo ([] : List Record) n = [] := by
  simp [pySliceTo]

theorem pySliceTo_subset (xs : List Record) (n : Int) : pySliceTo xs n ⊆ xs := by
  rw [pySliceTo]
  split <;> exact List.take_subset _ _

theorem pySliceTo_append (uniques extra : List Record) (nu : Int)
    (hnu : 0 ≤ nu) (hlen : uniques.length = nu.toNat) :
    pySliceTo (uniques ++ extra) nu = uniques := by
  rw [pySliceTo, if_pos hnu, List.take_left' hlen]

theorem makeUnique_id (st : GenState) : (makeUnique st).1.id = st.fk.pos := by
  simp only [makeUnique, fakeUuid4, fakeName, fakeAddress, fakeCity, fakeDob]
  rw [dropoutFields_id]

theorem makeUnique_selfref (st : GenState) :
    (makeUnique st).1.id = (makeUnique st).1.original_id := by
  simp only [makeUnique, fakeUuid4, fakeName, fakeAddress, fakeCity, fakeDob]
  rw [dropoutFields_id, dropoutFields_original_id]

theorem makeUnique_name (st : GenState) : (makeUnique st).1.name.isSome = true := by
  simp only [makeUnique, fakeUuid4, fakeName, fakeAddress, fakeCity, fakeDob]
  rw [dropoutFields_name]
  rfl

theorem makeUnique_pos (st : GenState) : (makeUnique st).2.fk.pos = st.fk.pos + 5 := by
  simp only [makeUnique, fakeUuid4, fakeName, fakeAddress, fakeCity, fakeDob]

theorem uniqueLoop_length (k : Nat) : ∀ st : GenState, (uniqueLoop k st).1.length = k := by
  induction k with
  | zero => intro st; rfl
  | succ k ih => intro st; simp [uniqueLoop, ih]

theorem uniqueLoop_map_id (k : Nat) :
    ∀ st : GenState, (uniqueLoop k st).1.map Record.id = List.range' st.fk.pos k 5 := by
  induction k with
  | zero => intro st; rfl
  | succ k ih =>
    intro st
    rw [List.range'_succ]
    simp only [uniqueLoop, List.map_cons, makeUnique_id, ih, makeUnique_pos]

theorem uniqueLoop_mem (k : Nat) :
    ∀ st : GenState, ∀ r ∈ (uniqueLoop k st).1,
      r.id = r.original_id ∧ r.name.isSome = true := by
  induction k with
  | zero => intro st r hr; simp [uniqueLoop] at hr
  | succ k ih =>
    intro st r hr
    simp only [uniqueLoop] at hr
    rcases List.mem_cons.mp hr with h | h
    · subst h
      exact ⟨makeUnique_selfref st, makeUnique_name st⟩
    · exact ih _ r h

theorem dupStep_ok (data : List Record) (nu : Int) (st : GenState)
    (a : Record) (rest : List Record) (hslice : pySliceTo data nu = a :: rest) :
    ∃ orig dnew st2, orig ∈ a :: rest ∧ dupStep data nu st = .ok (dnew, st2) ∧
      dnew.original_id = orig.original_id ∧
      dnew.name = (perturb orig.name st.rnd.next.2).1 := by
  obtain ⟨orig, hch, hmem⟩ : ∃ orig,
      pyChoice (pySliceTo data nu) st.rnd = .ok (orig, st.rnd.next.2) ∧
        orig ∈ a :: rest := by
    rw [hslice, pyChoice_cons]
    exact ⟨_, rfl, List.get_mem _ _ _⟩
  refine ⟨orig, ?_⟩
  simp only [dupStep, hch]
  exact ⟨_, _, hmem, rfl,
    by rw [dropoutFields_original_id, dupPre_original_id],
    by rw [dropoutFields_name, dupPre_name]⟩

theorem dupLoop_ok (nu : Int) (uniques : List Record) (hnu : 0 < nu)
    (hlen : uniques.length = nu.toNat)
    (hself : ∀ r ∈ uniques, r.id = r.original_id)
    (hname : ∀ r ∈ uniques, r.name.isSome = true) :
    ∀ (k : Nat) (extra : List Record) (st : GenState),
      ∃ ds st2, dupLoop nu k (uniques ++ extra) st = .ok (uniques ++ extra ++ ds, st2) ∧
        ds.length = k ∧
        ∀ d ∈ ds, d.original_id ∈ uniques.map Record.id ∧ d.name.isSome = true := by
  intro k
  induction k with
  | zero =>
    intro extra st
    exact ⟨[], st, by simp [dupLoop], rfl, by simp⟩
  | succ k ih =>
    intro extra st
    obtain ⟨a, rest, hu⟩ : ∃ a rest, uniques = a :: rest := by
      cases hcase : uniques with
      | nil =>
        exfalso
        rw [hcase] at hlen
        simp at hlen
        omega
      | cons a rest => exact ⟨a, rest, rfl⟩
    have hslice : pySliceTo (uniques ++ extra) nu = a :: rest := by
      rw [pySliceTo_append uniques extra nu hnu.le hlen, hu]
    obtain ⟨orig, dnew, st3, horigmem, hstepeq, hdoid, hdname⟩ :=
      dupStep_ok (uniques ++ extra) nu st a rest hslice
    have horiguniq : orig ∈ uniques := by rw [hu]; exact horigmem
    have hloopstep : dupLoop nu (k + 1) (uniques ++ extra) st =
        dupLoop nu k ((uniques ++ extra) ++ [dnew]) st3 := by
      simp only [dupLoop, hstepeq]
    obtain ⟨ds, st4, hIH, hlen2, hprops⟩ := ih (extra ++ [dnew]) st3
    refine ⟨dnew :: ds, st4, ?_, by simp [hlen2], ?_⟩
    · rw [hloopstep]
      have hassoc : (uniques ++ extra) ++ [dnew] = uniques ++ (extra ++ [dnew]) := by
        simp
      rw [hassoc, hIH]
      simp
    · intro d hd
      rcases List.mem_cons.mp hd with h | h
      · subst h
        constructor
        · rw [hdoid, ← hself orig horiguniq]
          exact List.mem_map_of_mem Record.id horiguniq
        · rw [hdname]
          exact perturb_isSome orig.name _ (hname orig horiguniq)
      · exact hprops d h

theorem generate_data_ok (nu nd seed : Int) (g0 : RandomState) (f0 : FakerState)
    (h1 : 0 < nu) (h2 : 0 ≤ nd) :
    ∃ ds, generate_data nu nd seed g0 f0 =
        .ok ((uniqueLoop nu.toNat (initState seed)).1 ++ ds) ∧
      ds.length = nd.toNat ∧
      ∀ d ∈ ds,
        d.original_id ∈ (uniqueLoop nu.toNat (initState seed)).1.map Record.id ∧
        d.name.isSome = true := by
  have hlen : (uniqueLoop nu.toNat (initState seed)).1.length = nu.toNat :=
    uniqueLoop_length _ _
  obtain ⟨ds, st2, hloop, hdslen, hprops⟩ :=
    dupLoop_ok nu (uniqueLoop nu.toNat (initState seed)).1 h1 hlen
      (fun r hr => (uniqueLoop_mem nu.toNat (initState seed) r hr).1)
      (fun r hr => (uniqueLoop_mem nu.toNat (initState seed) r hr).2)
      nd.toNat [] (uniqueLoop nu.toNat (initState seed)).2
  simp only [List.append_nil] at hloop
  refine ⟨ds, ?_, hdslen, hprops⟩
  simp only [generate_data, hloop]

theorem dupStep_names (data : List Record) (nu : Int) (st : GenState)
    (p : Record × GenState)
    (hall : ∀ r ∈ data, r.name.isSome = true)
    (h : dupStep data nu st = .ok p) : p.1.name.isSome = true := by
  cases hch : pyChoice (pySliceTo data nu) st.rnd with
  | error e =>
    simp only [dupStep, hch] at h
    exact Except.noConfusion h
  | ok og =>
    simp only [dupStep, hch] at h
    injection h with h2
    rw [← h2]
    dsimp only
    rw [dropoutFields_name, dupPre_name]
    apply perturb_isSome
    exact hall og.1 (pySliceTo_subset data nu (pyChoice_mem hch))

theorem dupLoop_names (nu : Int) :
    ∀ (k : Nat) (data : List Record) (st : GenState) (res : List Record × GenState),
      (∀ r ∈ data, r.name.isSome = true) → dupLoop nu k data st = .ok res →
      ∀ r ∈ res.1, r.name.isSome = true := by
  intro k
  induction k with
  | zero =>
    intro data st res hall h
    simp only [dupLoop] at h
    injection h with h2
    rw [← h2]
    exact hall
  | succ k ih =>
    intro data st res hall h
    cases hst : dupStep data nu st with
    | error e =>
      simp only [dupLoop, hst] at h
      exact Except.noConfusion h
    | ok d =>
      simp only [dupLoop, hst] at h
      refine ih (data ++ [d.1]) d.2 res ?_ h
      intro r hr
      rcases List.mem_append.mp hr with hd | hd
      · exact hall r hd
      · rw [List.mem_singleton.mp hd]
        exact dupStep_names data nu st d hall hst

theorem countP_id_eq_one (l : List Record) (x : Nat)
    (hn : (l.map Record.id).Nodup) (hx : x ∈ l.map Record.id) :
    (l.countP fun u => u.id == x) = 1 := by
  have heq : (l.countP fun u => u.id == x) = (l.map Record.id).countP fun y => y == x :=
    (List.countP_map (fun y => y == x) Record.id l).symm
  rw [heq]
  exact List.count_eq_one_of_mem hn hx

/-- C1: for a positive unique count and non-negative duplicate count, the
generator succeeds and the dataset has exactly `n_unique + n_duplicates`
rows. -/
theorem claim_C1 (nu nd seed : Int) (g0 : RandomState) (f0 : FakerState)
    (h1 : 0 < nu) (h2 : 0 ≤ nd) :
    (generate_data nu nd seed g0 f0).toOption.map List.length =
      some (nu.toNat + nd.toNat) := by
  obtain ⟨ds, hok, hdslen, -⟩ := generate_data_ok nu nd seed g0 f0 h1 h2
  rw [hok]
  simp [Except.toOption, uniqueLoop_length, hdslen]

theorem claim_C1_witness :
    (0 : Int) < 2 ∧ (0 : Int) ≤ 1 ∧
      (generate_data 2 1 0 (pySeed 5) (FakerState.reset 5)).toOption.map List.length =
        some ((2 : Int).toNat + (1 : Int).toNat) :=
  ⟨by decide, by decide,
    claim_C1 2 1 0 (pySeed 5) (FakerState.reset 5) (by decide) (by decide)⟩

/-- C2 (amended): with `n_unique ≤ 0` and `n_duplicates > 0` the call fails
— but with the `IndexError` raised by sampling from the empty unique pool,
not a dedicated configuration check; there is no validation of negative
counts elsewhere. -/
theorem claim_C2_amended (nu nd seed : Int) (g0 : RandomState) (f0 : FakerState)
    (h1 : nu ≤ 0) (h2 : 0 < nd) :
    generate_data nu nd seed g0 f0 = .error "Cannot choose from an empty sequence" := by
  have hnu : nu.toNat = 0 := by omega
  obtain ⟨k, hk⟩ : ∃ k, nd.toNat = k + 1 := ⟨nd.toNat - 1, by omega⟩
  simp only [generate_data, hnu, hk, uniqueLoop, dupLoop, dupStep, pySliceTo_nil, pyChoice]

theorem claim_C2_amended_witness :
    (0 : Int) ≤ 0 ∧ (0 : Int) < 5 ∧
      generate_data 0 5 1 (pySeed 1) (FakerState.reset 1) =
        .error "Cannot choose from an empty sequence" :=
  ⟨by decide, by decide,
    claim_C2_amended 0 5 1 (pySeed 1) (FakerState.reset 1) (by decide) (by decide)⟩

/-- C2 (counterexample to the claim as stated): a negative duplicate count
is not rejected — `generate_data(5, -1, 1)` runs the duplicate loop zero
times and returns a 5-row dataset instead of failing. -/
theorem claim_C2_counterexample :
    ((-1 : Int) < 0) ∧
      (generate_data 5 (-1) 1 (pySeed 1) (FakerState.reset 1)).toOption.map List.length =
        some 5 :=
  ⟨by decide, by decide⟩

/-- C4: the first `n_unique` rows of a successful run are self-referential
(`id = original_id`) and their ids are pairwise distinct. -/
theorem claim_C4 (nu nd seed : Int) (g0 : RandomState) (f0 : FakerState)
    (rows : List Record) (h1 : 0 < nu) (h2 : 0 ≤ nd)
    (h : generate_data nu nd seed g0 f0 = .ok rows) :
    uniqueSelfRef nu.toNat rows := by
  obtain ⟨ds, hok, hdslen, hprops⟩ := generate_data_ok nu nd seed g0 f0 h1 h2
  rw [h] at hok
  injection hok with hrows
  subst hrows
  have hlen : (uniqueLoop nu.toNat (initState seed)).1.length = nu.toNat :=
    uniqueLoop_length _ _
  unfold uniqueSelfRef
  constructor
  · intro r hr
    rw [List.take_left' hlen] at hr
    exact (uniqueLoop_mem nu.toNat (initState seed) r hr).1
  · rw [List.take_left' hlen, uniqueLoop_map_id]
    exact List.nodup_range' _ _ _ (by norm_num)

theorem claim_C4_witness :
    (0 : Int) < 2 ∧ (0 : Int) ≤ 1 ∧
      uniqueSelfRef (2 : Int).toNat
        ((generate_data 2 1 0 (pySeed 5) (FakerState.reset 5)).toOption.getD []) :=
  ⟨by decide, by decide,
    claim_C4 2 1 0 (pySeed 5) (FakerState.reset 5)
      ((generate_data 2 1 0 (pySeed 5) (FakerState.reset 5)).toOption.getD [])
      (by decide) (by decide) (by rfl)⟩

/-- C5: every row's `original_id` equals the `id` of exactly one row among
the first `n_unique` (the Phase-A unique pool): duplicates are sampled from
that pool only, so ground truth closure holds with multiplicity one. -/
theorem claim_C5 (nu nd seed : Int) (g0 : RandomState) (f0 : FakerState)
    (rows : List Record) (h1 : 0 < nu) (h2 : 0 ≤ nd)
    (h : generate_data nu nd seed g0 f0 = .ok rows) :
    groundTruthClosure nu.toNat rows := by
  obtain ⟨ds, hok, hdslen, hprops⟩ := generate_data_ok nu nd seed g0 f0 h1 h2
  rw [h] at hok
  injection hok with hrows
  subst hrows
  have hlen : (uniqueLoop nu.toNat (initState seed)).1.length = nu.toNat :=
    uniqueLoop_length _ _
  have hnodup : ((uniqueLoop nu.toNat (initState seed)).1.map Record.id).Nodup := by
    rw [uniqueLoop_map_id]
    exact List.nodup_range' _ _ _ (by norm_num)
  unfold groundTruthClosure
  intro r hr
  rw [List.take_left' hlen]
  have hmemb : r.original_id ∈ (uniqueLoop nu.toNat (initState seed)).1.map Record.id := by
    rcases List.mem_append.mp hr with hu | hd
    · rw [← (uniqueLoop_mem nu.toNat (initState seed) r hu).1]
      exact List.mem_map_of_mem Record.id hu
    · exact (hprops r hd).1
  exact countP_id_eq_one _ _ hnodup hmemb

theorem claim_C5_witness :
    (0 : Int) < 2 ∧ (0 : Int) ≤ 1 ∧
      groundTruthClosure (2 : Int).toNat
        ((generate_data 2 1 0 (pySeed 5) (FakerState.reset 5)).toOption.getD []) :=
  ⟨by decide, by decide,
    claim_C5 2 1 0 (pySeed 5) (FakerState.reset 5)
      ((generate_data 2 1 0 (pySeed 5) (FakerState.reset 5)).toOption.getD [])
      (by decide) (by decide) (by rfl)⟩

/-- C10: every row of any successful run has a present `name`: the dropout
loop touches only `address`, `city`, `date_of_birth`, and corrupting a
present name yields a present string. -/
theorem claim_C10 (nu nd seed : Int) (g0 : RandomState) (f0 : FakerState)
    (rows : List Record) (h : generate_data nu nd seed g0 f0 = .ok rows) :
    namesPresent rows := by
  unfold namesPresent
  simp only [generate_data] at h
  cases hdl : dupLoop nu nd.toNat (uniqueLoop nu.toNat (initState seed)).1
      (uniqueLoop nu.toNat (initState seed)).2 with
  | error e =>
    simp only [hdl] at h
    exact Except.noConfusion h
  | ok res =>
    simp only [hdl] at h
    injection h with h2
    intro r hr
    refine dupLoop_names nu nd.toNat _ _ res ?_ hdl r ?_
    · exact fun q hq => (uniqueLoop_mem nu.toNat (initState seed) q hq).2
    · rw [h2]
      exact hr

theorem claim_C10_witness :
    namesPresent ((generate_data 2 1 0 (pySeed 5) (FakerState.reset 5)).toOption.getD []) :=
  claim_C10 2 1 0 (pySeed 5) (FakerState.reset 5)
    ((generate_data 2 1 0 (pySeed 5) (FakerState.reset 5)).toOption.getD [])
    (by rfl)
